import Mathlib

/-!
Verification development for the hyperlane-mcp local registry and transfer
engine.  The definitions below are shallow embeddings of the TypeScript
sources (`src/localRegistry.ts`, `src/assetTransfer.ts`, `src/index.ts`):
machine words are `Nat` reduced modulo `2^32`, JavaScript objects are
association lists, the file system and the remote source registry are
explicit oracle parameters, and promise rejection is `Except`.
-/

set_option maxRecDepth 20000

/-! ## 32-bit word arithmetic and SHA-256 (Node `crypto.createHash('sha256')`) -/

def MASK32 : Nat := 4294967295

def add32 (a b : Nat) : Nat := (a + b) % 4294967296

def rotr32 (n x : Nat) : Nat := (x >>> n) ||| ((x <<< (32 - n)) &&& MASK32)

def shr32 (n x : Nat) : Nat := x >>> n

def not32 (x : Nat) : Nat := x ^^^ MASK32

def bigSigma0 (x : Nat) : Nat := rotr32 2 x ^^^ rotr32 13 x ^^^ rotr32 22 x

def bigSigma1 (x : Nat) : Nat := rotr32 6 x ^^^ rotr32 11 x ^^^ rotr32 25 x

def smallSigma0 (x : Nat) : Nat := rotr32 7 x ^^^ rotr32 18 x ^^^ shr32 3 x

def smallSigma1 (x : Nat) : Nat := rotr32 17 x ^^^ rotr32 19 x ^^^ shr32 10 x

def ch32 (e f g : Nat) : Nat := (e &&& f) ^^^ (not32 e &&& g)

def maj32 (a b c : Nat) : Nat := (a &&& b) ^^^ (a &&& c) ^^^ (b &&& c)

def sha256K : List Nat :=
  [1116352408, 1899447441, 3049323471, 3921009573, 961987163,
   1508970993, 2453635748, 2870763221, 3624381080, 310598401,
   607225278, 1426881987, 1925078388, 2162078206, 2614888103,
   3248222580, 3835390401, 4022224774, 264347078, 604807628,
   770255983, 1249150122, 1555081692, 1996064986, 2554220882,
   2821834349, 2952996808, 3210313671, 3336571891, 3584528711,
   113926993, 338241895, 666307205, 773529912, 1294757372,
   1396182291, 1695183700, 1986661051, 2177026350, 2456956037,
   2730485921, 2820302411, 3259730800, 3345764771, 3516065817,
   3600352804, 4094571909, 275423344, 430227734, 506948616,
   659060556, 883997877, 958139571, 1322822218, 1537002063,
   1747873779, 1955562222, 2024104815, 2227730452, 2361852424,
   2428436474, 2756734187, 3204031479, 3329325298]

def sha256InitH : List Nat :=
  [1779033703, 3144134277, 1013904242, 2773480762,
   1359893119, 2600822924, 528734635, 1541459225]

/-- SHA-256 padding: append `0x80`, zero bytes up to 56 mod 64, then the
64-bit big-endian bit length. -/
def sha256Pad (msg : List Nat) : List Nat :=
  let bitLen := 8 * msg.length
  let zeros := (120 - (msg.length + 1) % 64) % 64
  msg ++ [128] ++ List.replicate zeros 0 ++
    ((List.range 8).map (fun i => (bitLen >>> (8 * (7 - i))) &&& 255))

def bytesToWords : List Nat → List Nat
  | a :: b :: c :: d :: rest =>
      ((a <<< 24) ||| (b <<< 16) ||| (c <<< 8) ||| d) :: bytesToWords rest
  | _ => []

def chunk16Aux : Nat → List Nat → List (List Nat)
  | 0, _ => []
  | _, [] => []
  | fuel + 1, ws => ws.take 16 :: chunk16Aux fuel (ws.drop 16)

def chunk16 (ws : List Nat) : List (List Nat) := chunk16Aux ws.length ws

def scheduleStep (w : Array Nat) : Nat :=
  let t := w.size
  add32 (add32 (smallSigma1 (w.getD (t - 2) 0)) (w.getD (t - 7) 0))
        (add32 (smallSigma0 (w.getD (t - 15) 0)) (w.getD (t - 16) 0))

def buildSchedule (w16 : List Nat) : List Nat :=
  ((List.range 48).foldl (fun w _ => w.push (scheduleStep w)) w16.toArray).toList

def sha256Round (s : List Nat) (kt wt : Nat) : List Nat :=
  match s with
  | [a, b, c, d, e, f, g, h] =>
      let t1 := add32 h (add32 (bigSigma1 e) (add32 (ch32 e f g) (add32 kt wt)))
      let t2 := add32 (bigSigma0 a) (maj32 a b c)
      [add32 t1 t2, a, b, c, add32 d t1, e, f, g]
  | _ => s

def sha256Compress (hh : List Nat) (block : List Nat) : List Nat :=
  let w := buildSchedule block
  let s := (List.zip sha256K w).foldl (fun s kw => sha256Round s kw.1 kw.2) hh
  List.zipWith add32 hh s

def wordBytes (w : Nat) : List Nat :=
  [(w >>> 24) &&& 255, (w >>> 16) &&& 255, (w >>> 8) &&& 255, w &&& 255]

def sha256Bytes (msg : List Nat) : List Nat :=
  let blocks := chunk16 (bytesToWords (sha256Pad msg))
  (blocks.foldl sha256Compress sha256InitH).flatMap wordBytes

def hexDigitChar (n : Nat) : Char :=
  if n < 10 then Char.ofNat (48 + n) else Char.ofNat (87 + n)

def byteToHex (b : Nat) : List Char := [hexDigitChar (b / 16), hexDigitChar (b % 16)]

def bytesToHexStr (bs : List Nat) : String := ⟨bs.flatMap byteToHex⟩

/-- Lowercase hex SHA-256 digest of a byte string, as produced by
`crypto.createHash('sha256').update(s).digest('hex')`. -/
def sha256Hex (msg : List Nat) : String := bytesToHexStr (sha256Bytes msg)

/-- UTF-8 encoding of a single code point (Node's default `utf8` encoding
for `Hash.update` on a string). -/
def utf8Encode (c : Char) : List Nat :=
  let n := c.toNat
  if n < 128 then [n]
  else if n < 2048 then [192 ||| (n >>> 6), 128 ||| (n &&& 63)]
  else if n < 65536 then
    [224 ||| (n >>> 12), 128 ||| ((n >>> 6) &&& 63), 128 ||| (n &&& 63)]
  else
    [240 ||| (n >>> 18), 128 ||| ((n >>> 12) &&& 63),
     128 ||| ((n >>> 6) &&& 63), 128 ||| (n &&& 63)]

def strBytes (s : String) : List Nat := s.data.flatMap utf8Encode

/-! ## Warp route configurations and `LocalRegistry.generateRouteId`

`WarpToken` keeps exactly the token fields the registry logic reads
(`chainName`, `addressOrDenom`, `symbol`); `WarpCoreConfig` is its token
list.  `Array.prototype.sort()` with the default comparator is modelled as
`List.insertionSort` by the string order. -/

structure WarpToken where
  chainName : String
  addressOrDenom : String
  symbol : String
deriving DecidableEq

structure WarpCoreConfig where
  tokens : List WarpToken
deriving DecidableEq

def sortStrings (l : List String) : List String := List.insertionSort (· ≤ ·) l

/-- JavaScript `a || b` for a possibly-`undefined` string `a`: the empty
string is falsy, so it falls through to `b`. -/
def jsOrStr (a : Option String) (b : String) : String :=
  match a with
  | some s => if s = "" then b else s
  | none => b

/-- `LocalRegistry.generateRouteId` (src/localRegistry.ts:226-243). -/
def generateRouteId (config : WarpCoreConfig) (symbol : Option String) : String :=
  let tokens := config.tokens
  let chainTokens :=
    String.intercalate "-"
      (sortStrings (tokens.map (fun t => t.chainName ++ ":" ++ t.addressOrDenom)))
  let baseId := jsOrStr symbol (jsOrStr (tokens.head?.map (fun t => t.symbol)) "unknown")
  let hash := (sha256Hex (strBytes chainTokens)).take 8
  baseId ++ "-" ++ hash

/-- The 8-hex-character hash suffix of a route identifier. -/
def routeHash (config : WarpCoreConfig) : String :=
  (sha256Hex (strBytes (String.intercalate "-"
    (sortStrings (config.tokens.map (fun t => t.chainName ++ ":" ++ t.addressOrDenom)))))).take 8

/-- Route identifier exactly as the claim words it: base is the supplied
symbol if given, else the first token's symbol, else `"unknown"`. -/
def routeIdClaimed (cfg : WarpCoreConfig) (sym : Option String) : String :=
  let base :=
    match sym with
    | some s => s
    | none =>
      match cfg.tokens.head? with
      | some t => t.symbol
      | none => "unknown"
  base ++ "-" ++ routeHash cfg

/-- Base label fallback with JavaScript truthiness made explicit. -/
def fallbackBase (cfg : WarpCoreConfig) : String :=
  match cfg.tokens.head? with
  | some t => if t.symbol = "" then "unknown" else t.symbol
  | none => "unknown"

/-- Route identifier as amended: an empty supplied symbol (and an empty
first-token symbol) are treated as absent, because the source uses `||`. -/
def routeIdAmended (cfg : WarpCoreConfig) (sym : Option String) : String :=
  (match sym with
   | some s => if s = "" then fallbackBase cfg else s
   | none => fallbackBase cfg) ++ "-" ++ routeHash cfg

def cfgUSDC : WarpCoreConfig :=
  ⟨[⟨"eth", "0xAAA", "USDC"⟩, ⟨"polygon", "0xBBB", "USDC"⟩]⟩

def cfgPermA : WarpCoreConfig := ⟨[⟨"c1", "0x1", "USDC"⟩, ⟨"c2", "0x2", "XY"⟩]⟩

def cfgPermB : WarpCoreConfig := ⟨[⟨"c2", "0x2", "XY"⟩, ⟨"c1", "0x1", "USDC"⟩]⟩

/-! ## Local registry state

JavaScript objects used as string-keyed maps become association lists whose
`setKey` mirrors JS property assignment (in-place update of an existing key,
append of a new one).  File paths are taken relative to the registry's
storage root (`path.join` of constant segments).  `readYamlOrJson`
(`src/configOpts.ts`, not part of the provided sources) is represented by a
parse oracle: `ParsedVal.err` is a thrown read/parse error, `ParsedVal.nonObj`
a value failing the `typeof === 'object'` guards, `ParsedVal.obj` a parsed
object. -/

def Addrs : Type := List (String × String)

instance : DecidableEq Addrs := by unfold Addrs; infer_instance

structure ChainMetadata where
  name : Option String := none
  chainId : Option Nat := none
  rpcUrls : List String := []
  addresses : Option Addrs := none
deriving DecidableEq

/-- Opaque warp-route deploy config payload; the registry never inspects it. -/
structure WarpRouteDeployConfig where
  payload : Nat
deriving DecidableEq

inductive ParsedVal (α : Type) where
  | err
  | nonObj
  | obj (v : α)
deriving DecidableEq

def setKey {α : Type} (l : List (String × α)) (k : String) (v : α) : List (String × α) :=
  if l.any (fun p => p.1 == k) then l.map (fun p => if p.1 = k then (k, v) else p)
  else l ++ [(k, v)]

structure RegState where
  localWarpRoutes : List (String × WarpCoreConfig) := []
  localWarpDeployConfigs : List (String × WarpRouteDeployConfig) := []
  localChainMetadata : List (String × ChainMetadata) := []
  localChainDeployAddresses : List (String × Addrs) := []
  files : List (String × String) := []
deriving DecidableEq

def metadataPath (chain : String) : String := "chains/" ++ chain ++ ".yaml"

def deployPathYaml (chain : String) : String := "chains/" ++ chain ++ ".deploy.yaml"

def deployPathYml (chain : String) : String := "chains/" ++ chain ++ ".deploy.yml"

def routePath (routeId : String) : String := "routes/" ++ routeId ++ ".yaml"

/-- `LocalRegistry.getChainAddresses` (src/localRegistry.ts:319-385), as a
pure function of the registry state, the parse oracle for deploy-address
files, and the source-registry oracle.  Returns the result together with the
successor state (the deploy-address cache may gain a lazily loaded entry). -/
def getChainAddresses (parseAddrs : String → ParsedVal Addrs)
    (srcChainAddresses : String → Option Addrs)
    (st : RegState) (chainName : String) : Option Addrs × RegState :=
  match (st.localChainMetadata.lookup chainName).bind (fun m => m.addresses) with
  | some a => (some a, st)
  | none =>
  match st.localChainDeployAddresses.lookup chainName with
  | some a => (some a, st)
  | none =>
  match st.files.lookup (deployPathYaml chainName) with
  | some content =>
    (match parseAddrs content with
     | ParsedVal.obj a =>
        (some a, { st with localChainDeployAddresses :=
                     setKey st.localChainDeployAddresses chainName a })
     | _ => (srcChainAddresses chainName, st))
  | none =>
  match st.files.lookup (deployPathYml chainName) with
  | some content =>
    (match parseAddrs content with
     | ParsedVal.obj a =>
        (some a, { st with localChainDeployAddresses :=
                     setKey st.localChainDeployAddresses chainName a })
     | _ => (srcChainAddresses chainName, st))
  | none => (srcChainAddresses chainName, st)

/-- What the on-disk deploy-address lookup yields: the `.yaml` file if it
exists (`.yml` is never tried then), else the `.yml` file; a read error or a
non-object value yields nothing. -/
def diskDeployAddrs (parseAddrs : String → ParsedVal Addrs)
    (st : RegState) (chainName : String) : Option Addrs :=
  match st.files.lookup (deployPathYaml chainName) with
  | some content => (match parseAddrs content with | ParsedVal.obj a => some a | _ => none)
  | none =>
    match st.files.lookup (deployPathYml chainName) with
    | some content => (match parseAddrs content with | ParsedVal.obj a => some a | _ => none)
    | none => none

/-- The four sources of `getChainAddresses` in the spec's order. -/
def chainAddrSources (parseAddrs : String → ParsedVal Addrs)
    (srcChainAddresses : String → Option Addrs)
    (st : RegState) (chainName : String) : List (Option Addrs) :=
  [(st.localChainMetadata.lookup chainName).bind (fun m => m.addresses),
   st.localChainDeployAddresses.lookup chainName,
   diskDeployAddrs parseAddrs st chainName,
   srcChainAddresses chainName]

def firstHit {α : Type} (l : List (Option α)) : Option α := l.findSome? id

/-- Registry state with chain `X` carrying both metadata-embedded addresses
and a deploy-address file on disk. -/
def stC7 : RegState :=
  { localChainMetadata := [("X", { addresses := some [("mailbox", "0xMETA")] })],
    files := [("chains/X.deploy.yaml", "mailbox: 0xFILE")] }

def parseC7 : String → ParsedVal Addrs := fun _ => ParsedVal.obj [("mailbox", "0xFILE")]

/-- State with only a deploy-address file for chain `Y`. -/
def stC7b : RegState := { files := [("chains/Y.deploy.yaml", "mailbox: 0xFILE")] }

/-! ## `LocalRegistry.addChain` and `LocalRegistry.updateChain`

`addChain` guards its `metadata` parameter with
`!metadata || typeof metadata !== 'object'`; to express that guard the
runtime value is modelled by `JsMeta`, covering the JavaScript values the
check distinguishes.  `stringify` from the `yaml` package is modelled by
concrete serializers; all the proofs need of them is which inputs they read. -/

inductive JsMeta where
  | undef
  | jsNull
  | jsStr (s : String)
  | jsNum (n : Int)
  | jsBool (b : Bool)
  | obj (m : ChainMetadata)
deriving DecidableEq

def jsFalsy : JsMeta → Bool
  | .undef => true
  | .jsNull => true
  | .jsStr s => s = ""
  | .jsNum n => n = 0
  | .jsBool b => !b
  | .obj _ => false

def jsIsObjectType : JsMeta → Bool
  | .jsNull => true
  | .obj _ => true
  | _ => false

/-- The `addChain` rejection condition `!metadata || typeof metadata !== 'object'`. -/
def addChainGuardFails (m : JsMeta) : Bool := jsFalsy m || !(jsIsObjectType m)

structure UpdateChainParams where
  chainName : String
  metadata : JsMeta := JsMeta.undef
  addresses : Option Addrs := none
  deployAddresses : Option Addrs := none

def stringifyAddrs (a : Addrs) : String :=
  String.intercalate "" (a.map (fun kv => kv.1 ++ ": " ++ kv.2 ++ "\n"))

def stringifyMeta (m : ChainMetadata) : String :=
  "name: " ++ (match m.name with | some n => n | none => "null") ++ "\n" ++
    (match m.chainId with | some i => "chainId: " ++ toString i ++ "\n" | none => "") ++
    (match m.rpcUrls with
     | [] => ""
     | us => "rpcUrls:\n" ++ String.intercalate "" (us.map (fun u => "- " ++ u ++ "\n"))) ++
    (match m.addresses with
     | some a => "addresses:\n" ++ stringifyAddrs a
     | none => "")

/-- `LocalRegistry.addChain` (src/localRegistry.ts:387-434).  A thrown error
is `(unchanged-so-far state, some message)`; the interpolated diagnostics of
the first message are abbreviated to the fixed text plus the chain name. -/
def addChain (st : RegState) (p : UpdateChainParams) : RegState × Option String :=
  if addChainGuardFails p.metadata then
    (st, some ("Invalid or missing chain config for \x22" ++ p.chainName ++ "\x22"))
  else match p.metadata with
  | JsMeta.obj m =>
    let yamlStr := stringifyMeta m
    if yamlStr = "" then
      (st, some ("Failed to serialize config for \x22" ++ p.chainName ++ "\x22"))
    else
      let st1 := { st with localChainMetadata := setKey st.localChainMetadata p.chainName m }
      let st2 := { st1 with files := setKey st1.files (metadataPath p.chainName) yamlStr }
      match p.deployAddresses with
      | some d =>
        if 0 < d.length then
          ({ st2 with
              files := setKey st2.files (deployPathYaml p.chainName) (stringifyAddrs d),
              localChainDeployAddresses :=
                setKey st2.localChainDeployAddresses p.chainName d }, none)
        else (st2, none)
      | none => (st2, none)
  | _ => (st, some ("Invalid or missing chain config for \x22" ++ p.chainName ++ "\x22"))

def pBad : UpdateChainParams := { chainName := "zeta", metadata := JsMeta.jsStr "oops" }

def mGood : ChainMetadata := { name := some "zeta", chainId := some 7 }

def pGood : UpdateChainParams :=
  { chainName := "zeta", metadata := JsMeta.obj mGood,
    deployAddresses := some [("mailbox", "0xM")] }

/-- JS object spread `{...existing, ...update}` for address maps. -/
def mergeAddrs (a b : Addrs) : Addrs := b.foldl (fun acc kv => setKey acc kv.1 kv.2) a

/-- Modelled from the spec: `readYamlOrJson` (src/configOpts.ts, not among
the provided sources) reads and parses a YAML file, throwing on a missing
file or parse failure; `updateChain` catches that and starts from an empty
object, then rejects non-object parses. -/
def readMetaFile (parseMeta : String → ParsedVal ChainMetadata)
    (st : RegState) (chain : String) : Except String ChainMetadata :=
  match st.files.lookup (metadataPath chain) with
  | none => Except.ok {}
  | some content =>
    match parseMeta content with
    | ParsedVal.err => Except.ok {}
    | ParsedVal.nonObj => Except.error ("Invalid chain config format for " ++ chain)
    | ParsedVal.obj m => Except.ok m

/-- Deploy-address half of `LocalRegistry.updateChain`
(src/localRegistry.ts:480-520). -/
def updateChainDeploy (parseAddrs : String → ParsedVal Addrs)
    (st : RegState) (p : UpdateChainParams) : RegState × Option String :=
  match p.deployAddresses with
  | some d =>
    let existing : Addrs :=
      match st.files.lookup (deployPathYaml p.chainName) with
      | none => []
      | some content =>
        match parseAddrs content with
        | ParsedVal.obj a => a
        | _ => []
    let updated := mergeAddrs existing d
    ({ st with
        files := setKey st.files (deployPathYaml p.chainName) (stringifyAddrs updated),
        localChainDeployAddresses :=
          setKey st.localChainDeployAddresses p.chainName updated }, none)
  | none => (st, none)

/-- `LocalRegistry.updateChain` (src/localRegistry.ts:436-521). -/
def updateChain (parseMeta : String → ParsedVal ChainMetadata)
    (parseAddrs : String → ParsedVal Addrs)
    (st : RegState) (p : UpdateChainParams) : RegState × Option String :=
  match p.addresses with
  | some addrs =>
    match readMetaFile parseMeta st p.chainName with
    | Except.error e => (st, some e)
    | Except.ok cc =>
      let updatedConfig := { cc with addresses := some addrs }
      let st1 := { st with
          files := setKey st.files (metadataPath p.chainName) (stringifyMeta updatedConfig),
          localChainMetadata := setKey st.localChainMetadata p.chainName updatedConfig }
      updateChainDeploy parseAddrs st1 p
  | none => updateChainDeploy parseAddrs st p

def stringifyRoute (c : WarpCoreConfig) : String :=
  "tokens:\n" ++ String.intercalate ""
    (c.tokens.map (fun t =>
      "- " ++ t.chainName ++ ":" ++ t.addressOrDenom ++ ":" ++ t.symbol ++ "\n"))

/-- `LocalRegistry.addWarpRoute` (src/localRegistry.ts:205-224): stores the
core config in `localWarpRoutes` and writes `routes/<routeId>.yaml`; it never
touches `localWarpDeployConfigs`. -/
def addWarpRoute (st : RegState) (config : WarpCoreConfig) (symbol : Option String) : RegState :=
  let routeId := generateRouteId config symbol
  let st1 := { st with localWarpRoutes := setKey st.localWarpRoutes routeId config }
  { st1 with files := setKey st1.files (routePath routeId) (stringifyRoute config) }

/-- `LocalRegistry.getWarpDeployConfig` (src/localRegistry.ts:537-547). -/
def getWarpDeployConfig (st : RegState)
    (srcWDC : String → Except String (Option WarpRouteDeployConfig))
    (routeId : String) : Except String (Option WarpRouteDeployConfig) :=
  match st.localWarpDeployConfigs.lookup routeId with
  | some c => Except.ok (some c)
  | none => srcWDC routeId

/-- The registry operations that mutate registry state (`addWarpRoute`,
`addChain`, `updateChain`, and `getChainAddresses` through its lazy cache
fill); every other public method of `LocalRegistry` is a pure read in this
embedding. -/
inductive RegOp where
  | opAddWarpRoute (config : WarpCoreConfig) (symbol : Option String)
  | opAddChain (p : UpdateChainParams)
  | opUpdateChain (p : UpdateChainParams)
  | opGetChainAddresses (chain : String)

def applyOp (parseMeta : String → ParsedVal ChainMetadata)
    (parseAddrs : String → ParsedVal Addrs)
    (srcCA : String → Option Addrs) (st : RegState) : RegOp → RegState
  | RegOp.opAddWarpRoute cfg sym => addWarpRoute st cfg sym
  | RegOp.opAddChain p => (addChain st p).1
  | RegOp.opUpdateChain p => (updateChain parseMeta parseAddrs st p).1
  | RegOp.opGetChainAddresses c => (getChainAddresses parseAddrs srcCA st c).2

/-- State after the constructor: the field initializer leaves
`localWarpDeployConfigs` as `{}`, and `loadLocalStorage`
(src/localRegistry.ts:84-202) assigns only `localWarpRoutes`,
`localChainMetadata` and `localChainDeployAddresses`, whose loaded contents
are therefore universally quantified here (any behaviour of the loader is an
instance). -/
def initState (routes : List (String × WarpCoreConfig))
    (meta : List (String × ChainMetadata)) (deploys : List (String × Addrs))
    (files : List (String × String)) : RegState :=
  { localWarpRoutes := routes, localWarpDeployConfigs := [],
    localChainMetadata := meta, localChainDeployAddresses := deploys,
    files := files }

/-! ## Warp route lookup (`getWarpRoutes`, symbol/chain filters)

The remote source registry is an oracle returning `Except`: `Except.error`
is a rejected promise (e.g. the registry is unreachable). -/

structure WarpRouteFilterParams where
  chainName : Option String := none
  symbol : Option String := none

/-- `LocalRegistry.getWarpRoutes` (src/localRegistry.ts:549-593): source
routes merged with filter-matching local routes, local entries overriding on
key collision. -/
def getWarpRoutes
    (srcRoutes : Option WarpRouteFilterParams → Except String (List (String × WarpCoreConfig)))
    (st : RegState) (filter : Option WarpRouteFilterParams) :
    Except String (List (String × WarpCoreConfig)) :=
  match srcRoutes filter with
  | Except.error e => Except.error e
  | Except.ok sourceRoutes =>
    Except.ok (st.localWarpRoutes.foldl (fun combined rc =>
      match filter with
      | none => setKey combined rc.1 rc.2
      | some f =>
        let m1 := match f.chainName with
          | some cn =>
            if cn = "" then true else rc.2.tokens.any (fun t => t.chainName == cn)
          | none => true
        let m2 := match f.symbol with
          | some s =>
            if s = "" then true else rc.2.tokens.any (fun t => t.symbol == s)
          | none => true
        if m1 && m2 then setKey combined rc.1 rc.2 else combined) sourceRoutes)

/-- The candidate step of `getWarpRoutesBySymbolAndChains`:
`symbol ? this.getWarpRoutes({ symbol }) : this.getWarpRoutes()`. -/
def candidateRoutes
    (srcRoutes : Option WarpRouteFilterParams → Except String (List (String × WarpCoreConfig)))
    (st : RegState) (symbol : Option String) :
    Except String (List (String × WarpCoreConfig)) :=
  match symbol with
  | some s =>
    if s = "" then getWarpRoutes srcRoutes st none
    else getWarpRoutes srcRoutes st (some { symbol := some s })
  | none => getWarpRoutes srcRoutes st none

/-- The `try` body of `LocalRegistry.getWarpRoutesBySymbolAndChains`
(src/localRegistry.ts:604-646). -/
def getWarpRoutesBySymbolAndChainsBody
    (srcRoutes : Option WarpRouteFilterParams → Except String (List (String × WarpCoreConfig)))
    (st : RegState) (symbol : Option String) (chainNames : Option (List String)) :
    Except String (List WarpCoreConfig) :=
  match candidateRoutes srcRoutes st symbol with
  | Except.error e => Except.error e
  | Except.ok symbolRoutes =>
    match chainNames with
    | none => Except.ok (symbolRoutes.map (fun rc => rc.2))
    | some cns =>
      if cns.isEmpty then Except.ok (symbolRoutes.map (fun rc => rc.2))
      else Except.ok ((symbolRoutes.map (fun rc => rc.2)).filter (fun config =>
        !config.tokens.isEmpty &&
          cns.all (fun cn => config.tokens.any (fun t => t.chainName == cn))))

/-- `LocalRegistry.getWarpRoutesBySymbolAndChains` with its `catch`:
any internal failure yields `[]`. -/
def getWarpRoutesBySymbolAndChains
    (srcRoutes : Option WarpRouteFilterParams → Except String (List (String × WarpCoreConfig)))
    (st : RegState) (symbol : Option String) (chainNames : Option (List String)) :
    List WarpCoreConfig :=
  match getWarpRoutesBySymbolAndChainsBody srcRoutes st symbol chainNames with
  | Except.ok v => v
  | Except.error _ => []

/-- The `try` body of `LocalRegistry.getWarpDeployConfigsBySymbolAndChains`
(src/localRegistry.ts:669-700). -/
def getWarpDeployConfigsBySymbolAndChainsBody
    (srcRoutes : Option WarpRouteFilterParams → Except String (List (String × WarpCoreConfig)))
    (srcWDC : String → Except String (Option WarpRouteDeployConfig))
    (st : RegState) (symbol : String) (chainNames : Option (List String)) :
    Except String (List WarpRouteDeployConfig) :=
  let matchingRoutes := getWarpRoutesBySymbolAndChains srcRoutes st (some symbol) chainNames
  matchingRoutes.foldlM (fun deployConfigs route =>
    match getWarpDeployConfig st srcWDC (generateRouteId route (some symbol)) with
    | Except.error e => Except.error e
    | Except.ok (some dc) => Except.ok (deployConfigs ++ [dc])
    | Except.ok none => Except.ok deployConfigs) []

/-- `LocalRegistry.getWarpDeployConfigsBySymbolAndChains` with its `catch`. -/
def getWarpDeployConfigsBySymbolAndChains
    (srcRoutes : Option WarpRouteFilterParams → Except String (List (String × WarpCoreConfig)))
    (srcWDC : String → Except String (Option WarpRouteDeployConfig))
    (st : RegState) (symbol : String) (chainNames : Option (List String)) :
    List WarpRouteDeployConfig :=
  match getWarpDeployConfigsBySymbolAndChainsBody srcRoutes srcWDC st symbol chainNames with
  | Except.ok v => v
  | Except.error _ => []

def cfgEthArb : WarpCoreConfig :=
  ⟨[⟨"eth", "0xCCC", "USDC"⟩, ⟨"arbitrum", "0xDDD", "USDC"⟩]⟩

def rmC5 : List (String × WarpCoreConfig) := [("USDC-x", cfgUSDC), ("USDC-y", cfgEthArb)]

def srcRC5 : Option WarpRouteFilterParams → Except String (List (String × WarpCoreConfig)) :=
  fun _ => Except.ok rmC5

def srcWDC10 : String → Except String (Option WarpRouteDeployConfig) :=
  fun _ => Except.ok (some ⟨5⟩)

/-! ## Multi-hop asset transfer (`src/assetTransfer.ts`, `src/index.ts`)

`executeDelivery`'s chain-SDK interactions are oracles: `getTokensForRoute`
is `warpCore.getTokensForRoute(origin, destination)` and `deliver` stands for
the validated transfer submission returning the dispatch receipt and message.
-/

/-- `executeDelivery` (src/assetTransfer.ts:60-139), reduced to its control
flow on the token-resolution step (lines 91-103): zero routable tokens and
multiple routable tokens throw; exactly one is used. -/
def executeDelivery {R : Type} (getTokensForRoute : String → String → List WarpToken)
    (deliver : WarpToken → R) (origin destination : String) : Except String R :=
  match getTokensForRoute origin destination with
  | [] => Except.error "Error finding warp route"
  | [token] => Except.ok (deliver token)
  | _ :: _ :: _ => Except.error "Multiple tokens found for route"

/-- Modelled from the spec: the per-hop `timeout` wrapper lives in
`@hyperlane-xyz/utils`, outside this repository; per the spec a timed-out or
failed hop yields no delivery result ('an internal timeout breaks the loop
silently'), so a hop is an oracle `Nat → Option R` (`none` = timeout or
failure of hop `i`, i.e. of the leg `chains[i] → chains[i+1]`).
`assetTransferAux` is the `for` loop of `assetTransfer`
(src/assetTransfer.ts:31-56) with the loop bound supplied as fuel. -/
def assetTransferAux {R : Type} (chains : List String) (hop : Nat → Option R) :
    Nat → Nat → List R
  | 0, _ => []
  | fuel + 1, i =>
    match chains[i + 1]? with
    | none => assetTransferAux chains hop fuel (i + 1)
    | some _ =>
      match hop i with
      | some r => r :: assetTransferAux chains hop fuel (i + 1)
      | none => []

/-- `assetTransfer` (src/assetTransfer.ts:17-58). -/
def assetTransfer {R : Type} (chains : List String) (hop : Nat → Option R) : List R :=
  assetTransferAux chains hop chains.length 0

/-- The `cross-chain-asset-transfer` tool handler's error check
(src/index.ts:388): an array result is always truthy, so the error payload is
produced exactly when the hop-result count differs from `chains.length - 1`
(JS number arithmetic, hence `Int`). -/
def assetTransferToolError {R : Type} (chains : List String) (deliveryResult : List R) : Bool :=
  !((deliveryResult.length : Int) == (chains.length : Int) - 1)

def hopW : Nat → Option Nat := fun j => if j = 0 then some 0 else none

def gtW : String → String → List WarpToken := fun o _ =>
  if o = "eth" then [⟨"eth", "0x1", "USDC"⟩]
  else if o = "x2" then [⟨"a", "1", "S"⟩, ⟨"b", "2", "S"⟩]
  else []

/-! ## Theorems -/

theorem sha256_abc :
    sha256Hex (strBytes "abc") =
      "ba7816bf8f01cfea414140de5dae2223b00361a396177a9cb410ff61f20015ad" := by
  decide

theorem generateRouteId_def (cfg : WarpCoreConfig) (sym : Option String) :
    generateRouteId cfg sym =
      jsOrStr sym (jsOrStr (cfg.tokens.head?.map (fun t => t.symbol)) "unknown") ++
        "-" ++ routeHash cfg := rfl

theorem sortStrings_perm_eq {l l' : List String} (h : List.Perm l l') :
    sortStrings l = sortStrings l' :=
  List.eq_of_perm_of_sorted
    ((List.perm_insertionSort _ l).trans (h.trans (List.perm_insertionSort _ l').symm))
    (List.sorted_insertionSort _ l) (List.sorted_insertionSort _ l')

theorem routeHash_perm {cfg cfg' : WarpCoreConfig}
    (h : List.Perm cfg.tokens cfg'.tokens) : routeHash cfg = routeHash cfg' := by
  unfold routeHash
  rw [sortStrings_perm_eq (h.map (fun t => t.chainName ++ ":" ++ t.addressOrDenom))]

/-- C2 counterexample input: the supplied symbol is the empty string. -/
theorem generateRouteId_claim_cex :
    generateRouteId cfgUSDC (some "") ≠ routeIdClaimed cfgUSDC (some "") := by
  intro hEq
  have h1 : generateRouteId cfgUSDC (some "") = "USDC" ++ "-" ++ routeHash cfgUSDC := by
    rw [generateRouteId_def]; rfl
  have h2 : routeIdClaimed cfgUSDC (some "") = "" ++ "-" ++ routeHash cfgUSDC := rfl
  rw [h1, h2] at hEq
  have hl := congrArg String.length hEq
  simp only [String.length_append] at hl
  have e1 : "USDC".length = 4 := rfl
  have e2 : "".length = 0 := rfl
  rw [e1, e2] at hl
  omega

/-- C2: the generated identifier is `{base}-{hash8}` with the hash as
claimed, but the base falls back past an empty supplied symbol (and an
empty first-token symbol), since the source computes it with `||`. -/
theorem generateRouteId_eq_amended (cfg : WarpCoreConfig) (sym : Option String) :
    generateRouteId cfg sym = routeIdAmended cfg sym := by
  rw [generateRouteId_def]
  unfold routeIdAmended fallbackBase jsOrStr
  cases sym with
  | none =>
    cases h : cfg.tokens.head? with
    | none => simp
    | some t => simp
  | some s =>
    by_cases hs : s = ""
    · subst hs
      cases h : cfg.tokens.head? with
      | none => simp
      | some t => simp
    · simp [hs]

/-- C3 counterexample: swapping the two tokens of a route whose tokens carry
different symbols changes the identifier (the base label is read from the
first token before sorting). -/
theorem generateRouteId_perm_cex :
    List.Perm cfgPermA.tokens cfgPermB.tokens ∧
      generateRouteId cfgPermA none ≠ generateRouteId cfgPermB none := by
  refine ⟨by decide, ?_⟩
  intro hEq
  have h1 : generateRouteId cfgPermA none = "USDC" ++ "-" ++ routeHash cfgPermA := by
    rw [generateRouteId_def]; rfl
  have h2 : generateRouteId cfgPermB none = "XY" ++ "-" ++ routeHash cfgPermB := by
    rw [generateRouteId_def]; rfl
  have hH : routeHash cfgPermA = routeHash cfgPermB := routeHash_perm (by decide)
  rw [h1, h2, hH] at hEq
  have hl := congrArg String.length hEq
  simp only [String.length_append] at hl
  have e1 : "USDC".length = 4 := rfl
  have e2 : "XY".length = 2 := rfl
  rw [e1, e2] at hl
  omega

/-- C3 amended: permuting the token list never changes the hash suffix, and
leaves the whole identifier unchanged whenever the base label is unaffected
(the first token's symbol is preserved, or a non-empty symbol is supplied);
the computation is a pure function of the route contents. -/
theorem generateRouteId_perm (cfg cfg' : WarpCoreConfig) (sym : Option String)
    (hperm : List.Perm cfg.tokens cfg'.tokens) :
    routeHash cfg = routeHash cfg'
    ∧ (cfg.tokens.head?.map (fun t => t.symbol) =
         cfg'.tokens.head?.map (fun t => t.symbol) →
        generateRouteId cfg sym = generateRouteId cfg' sym)
    ∧ (∀ s, s ≠ "" → generateRouteId cfg (some s) = generateRouteId cfg' (some s)) := by
  have hH := routeHash_perm hperm
  refine ⟨hH, ?_, ?_⟩
  · intro hhead
    rw [generateRouteId_def, generateRouteId_def, hH, hhead]
  · intro s hs
    rw [generateRouteId_def, generateRouteId_def, hH]
    simp [jsOrStr, hs]

theorem generateRouteId_perm_witness :
    routeHash cfgPermA = routeHash cfgPermB ∧
      generateRouteId cfgPermA (some "USDC") = generateRouteId cfgPermB (some "USDC") := by
  have h := generateRouteId_perm cfgPermA cfgPermB (some "USDC") (by decide)
  exact ⟨h.1, h.2.2 "USDC" (by decide)⟩

theorem getChainAddresses_fst_eq (p : String → ParsedVal Addrs)
    (s : String → Option Addrs) (st : RegState) (c : String) :
    (getChainAddresses p s st c).1 = firstHit (chainAddrSources p s st c) := by
  simp only [getChainAddresses, chainAddrSources, diskDeployAddrs, firstHit]
  cases h1 : (st.localChainMetadata.lookup c).bind (fun m => m.addresses) with
  | some a => cases hsc : s c <;> simp_all [List.findSome?]
  | none =>
    cases h2 : st.localChainDeployAddresses.lookup c with
    | some a => cases hsc : s c <;> simp_all [List.findSome?]
    | none =>
      cases h3 : st.files.lookup (deployPathYaml c) with
      | some content =>
        cases h4 : p content with
        | obj a => cases hsc : s c <;> simp_all [List.findSome?]
        | err => cases hsc : s c <;> simp_all [List.findSome?]
        | nonObj => cases hsc : s c <;> simp_all [List.findSome?]
      | none =>
        cases h5 : st.files.lookup (deployPathYml c) with
        | some content =>
          cases h6 : p content with
          | obj a => cases hsc : s c <;> simp_all [List.findSome?]
          | err => cases hsc : s c <;> simp_all [List.findSome?]
          | nonObj => cases hsc : s c <;> simp_all [List.findSome?]
        | none => cases hsc : s c <;> simp_all [List.findSome?]

theorem getChainAddresses_snd_eq (p : String → ParsedVal Addrs)
    (s : String → Option Addrs) (st : RegState) (c : String) :
    (getChainAddresses p s st c).2 =
        (match (st.localChainMetadata.lookup c).bind (fun m => m.addresses),
               st.localChainDeployAddresses.lookup c,
               diskDeployAddrs p st c with
         | none, none, some a =>
             { st with localChainDeployAddresses := setKey st.localChainDeployAddresses c a }
         | _, _, _ => st) := by
  simp only [getChainAddresses, diskDeployAddrs]
  cases h1 : (st.localChainMetadata.lookup c).bind (fun m => m.addresses) with
  | some a => cases hsc : s c <;> simp_all [List.findSome?]
  | none =>
    cases h2 : st.localChainDeployAddresses.lookup c with
    | some a => cases hsc : s c <;> simp_all [List.findSome?]
    | none =>
      cases h3 : st.files.lookup (deployPathYaml c) with
      | some content =>
        cases h4 : p content with
        | obj a => cases hsc : s c <;> simp_all [List.findSome?]
        | err => cases hsc : s c <;> simp_all [List.findSome?]
        | nonObj => cases hsc : s c <;> simp_all [List.findSome?]
      | none =>
        cases h5 : st.files.lookup (deployPathYml c) with
        | some content =>
          cases h6 : p content with
          | obj a => cases hsc : s c <;> simp_all [List.findSome?]
          | err => cases hsc : s c <;> simp_all [List.findSome?]
          | nonObj => cases hsc : s c <;> simp_all [List.findSome?]
        | none => cases hsc : s c <;> simp_all [List.findSome?]

/-- C1: `getChainAddresses` returns the first hit among (a) metadata-embedded
addresses, (b) the deploy-address cache, (c) the on-disk deploy file
(`.yaml` before `.yml`), (d) the source registry — later sources never
override an earlier hit — and the successor state caches exactly a
successfully loaded disk result. -/
theorem getChainAddresses_precedence (p : String → ParsedVal Addrs)
    (s : String → Option Addrs) (st : RegState) (c : String) :
    (getChainAddresses p s st c).1 = firstHit (chainAddrSources p s st c)
    ∧ (getChainAddresses p s st c).2 =
        (match (st.localChainMetadata.lookup c).bind (fun m => m.addresses),
               st.localChainDeployAddresses.lookup c,
               diskDeployAddrs p st c with
         | none, none, some a =>
             { st with localChainDeployAddresses := setKey st.localChainDeployAddresses c a }
         | _, _, _ => st) :=
  ⟨getChainAddresses_fst_eq p s st c, getChainAddresses_snd_eq p s st c⟩

/-- C7 counterexample: the deploy-address file for `X` exists and parses,
yet `getChainAddresses` answers with the metadata-embedded addresses, not
the file's contents. -/
theorem getChainAddresses_file_authoritative_cex :
    (stC7.files.lookup (deployPathYaml "X")).isSome = true
    ∧ diskDeployAddrs parseC7 stC7 "X" = some [("mailbox", "0xFILE")]
    ∧ (getChainAddresses parseC7 (fun _ => none) stC7 "X").1 = some [("mailbox", "0xMETA")]
    ∧ (getChainAddresses parseC7 (fun _ => none) stC7 "X").1 ≠
        some [("mailbox", "0xFILE")] := by
  refine ⟨by decide, by decide, by decide, by decide⟩

/-- C7 amended: metadata-embedded addresses, when present, take precedence;
the deploy-address file is the answer only when no embedded addresses exist
and the deploy-address cache misses. -/
theorem getChainAddresses_deploy_file_secondary (p : String → ParsedVal Addrs)
    (s : String → Option Addrs) (st : RegState) (c : String) :
    (∀ a, (st.localChainMetadata.lookup c).bind (fun m => m.addresses) = some a →
      (getChainAddresses p s st c).1 = some a)
    ∧ ((st.localChainMetadata.lookup c).bind (fun m => m.addresses) = none →
       st.localChainDeployAddresses.lookup c = none →
       ∀ a, diskDeployAddrs p st c = some a → (getChainAddresses p s st c).1 = some a) := by
  constructor
  · intro a ha
    rw [getChainAddresses_fst_eq]
    simp [firstHit, chainAddrSources, ha, List.findSome?]
  · intro h1 h2 a ha
    rw [getChainAddresses_fst_eq]
    simp [firstHit, chainAddrSources, h1, h2, ha, List.findSome?]

theorem getChainAddresses_deploy_file_secondary_witness :
    (getChainAddresses parseC7 (fun _ => none) stC7 "X").1 = some [("mailbox", "0xMETA")]
    ∧ (getChainAddresses parseC7 (fun _ => none) stC7b "Y").1 = some [("mailbox", "0xFILE")] :=
  ⟨(getChainAddresses_deploy_file_secondary parseC7 (fun _ => none) stC7 "X").1
      [("mailbox", "0xMETA")] (by decide),
   (getChainAddresses_deploy_file_secondary parseC7 (fun _ => none) stC7b "Y").2
      (by decide) (by decide) [("mailbox", "0xFILE")] (by decide)⟩

theorem addChainGuardFails_iff (m : JsMeta) :
    addChainGuardFails m = false ↔ ∃ meta, m = JsMeta.obj meta := by
  cases m <;> simp [addChainGuardFails, jsFalsy, jsIsObjectType]

theorem stringifyMeta_ne_empty (m : ChainMetadata) : stringifyMeta m ≠ "" := by
  intro h
  have hl := congrArg String.length h
  rw [stringifyMeta] at hl
  simp only [String.length_append] at hl
  have e1 : "name: ".length = 6 := rfl
  have e2 : "".length = 0 := rfl
  rw [e1, e2] at hl
  omega

/-- C8: `addChain` rejects a missing or non-object metadata value with a
descriptive error and no state change; for object metadata it writes exactly
the serialized metadata to `chains/<name>.yaml` and caches it, and writes the
serialized deploy addresses to `chains/<name>.deploy.yaml` and caches them
exactly when a non-empty map is supplied; no other state component changes. -/
theorem addChain_spec (st : RegState) (p : UpdateChainParams) :
    ((∀ m, p.metadata ≠ JsMeta.obj m) →
      addChain st p =
        (st, some ("Invalid or missing chain config for \x22" ++ p.chainName ++ "\x22")))
    ∧ (∀ m, p.metadata = JsMeta.obj m →
        (addChain st p).2 = none
        ∧ (addChain st p).1.localChainMetadata = setKey st.localChainMetadata p.chainName m
        ∧ (addChain st p).1.files =
            (match p.deployAddresses with
             | some d =>
                 if 0 < d.length then
                   setKey (setKey st.files (metadataPath p.chainName) (stringifyMeta m))
                     (deployPathYaml p.chainName) (stringifyAddrs d)
                 else setKey st.files (metadataPath p.chainName) (stringifyMeta m)
             | none => setKey st.files (metadataPath p.chainName) (stringifyMeta m))
        ∧ (addChain st p).1.localChainDeployAddresses =
            (match p.deployAddresses with
             | some d =>
                 if 0 < d.length then setKey st.localChainDeployAddresses p.chainName d
                 else st.localChainDeployAddresses
             | none => st.localChainDeployAddresses)
        ∧ (addChain st p).1.localWarpRoutes = st.localWarpRoutes
        ∧ (addChain st p).1.localWarpDeployConfigs = st.localWarpDeployConfigs) := by
  constructor
  · intro hno
    have hg : addChainGuardFails p.metadata = true ∨
        (addChainGuardFails p.metadata = false ∧ ∀ m, p.metadata ≠ JsMeta.obj m) := by
      cases hm : p.metadata with
      | obj m => exact absurd hm (hno m)
      | jsStr s =>
        by_cases hs : s = "" <;>
          simp [addChainGuardFails, jsFalsy, jsIsObjectType, hs]
      | jsNum n =>
        by_cases hn : n = 0 <;>
          simp [addChainGuardFails, jsFalsy, jsIsObjectType, hn]
      | jsBool b => cases b <;> simp [addChainGuardFails, jsFalsy, jsIsObjectType]
      | undef => simp [addChainGuardFails, jsFalsy]
      | jsNull => simp [addChainGuardFails, jsFalsy]
    rcases hg with hg | ⟨hg, _⟩
    · simp [addChain, hg]
    · rcases (addChainGuardFails_iff p.metadata).mp hg with ⟨m, hm⟩
      exact absurd hm (hno m)
  · intro m hm
    have hne := stringifyMeta_ne_empty m
    cases hd : p.deployAddresses with
    | none =>
      simp [addChain, hm, hd, addChainGuardFails, jsFalsy, jsIsObjectType, hne]
    | some d =>
      by_cases hl : 0 < d.length
      · simp [addChain, hm, hd, hl, addChainGuardFails, jsFalsy, jsIsObjectType, hne]
      · simp [addChain, hm, hd, hl, addChainGuardFails, jsFalsy, jsIsObjectType, hne]

theorem addChain_spec_witness :
    addChain {} pBad =
      ({}, some ("Invalid or missing chain config for \x22" ++ pBad.chainName ++ "\x22"))
    ∧ (addChain {} pGood).2 = none
    ∧ (addChain {} pGood).1.localChainMetadata =
        setKey ({} : RegState).localChainMetadata "zeta" mGood :=
  ⟨(addChain_spec {} pBad).1 (fun m h => by simp [pBad] at h),
   ((addChain_spec {} pGood).2 mGood rfl).1,
   ((addChain_spec {} pGood).2 mGood rfl).2.1⟩

theorem applyOp_preserves_deployConfigs (pm : String → ParsedVal ChainMetadata)
    (pa : String → ParsedVal Addrs) (sca : String → Option Addrs)
    (st : RegState) (op : RegOp) :
    (applyOp pm pa sca st op).localWarpDeployConfigs = st.localWarpDeployConfigs := by
  cases op with
  | opAddWarpRoute cfg sym => simp [applyOp, addWarpRoute]
  | opAddChain p =>
    simp only [applyOp, addChain]
    repeat' split
    all_goals rfl
  | opUpdateChain p =>
    simp only [applyOp, updateChain, updateChainDeploy, readMetaFile]
    repeat' split
    all_goals rfl
  | opGetChainAddresses c =>
    simp only [applyOp]
    rw [getChainAddresses_snd_eq]
    repeat' split <;> simp

theorem foldl_preserves_deployConfigs (pm : String → ParsedVal ChainMetadata)
    (pa : String → ParsedVal Addrs) (sca : String → Option Addrs)
    (ops : List RegOp) : ∀ st : RegState,
    (ops.foldl (applyOp pm pa sca) st).localWarpDeployConfigs =
      st.localWarpDeployConfigs := by
  induction ops with
  | nil => intro st; rfl
  | cons op ops ih =>
    intro st
    rw [List.foldl_cons, ih, applyOp_preserves_deployConfigs]

/-- C6: both filtered lookups swallow internal failures.  With an unreachable
source-route registry each returns `[]`; with an unreachable deploy-config
source the deploy lookup also returns `[]` (its local deploy-config map being
empty, as it always is — see the C10 theorem). -/
theorem warpLookups_never_throw (e : String) (st : RegState) (sym : Option String)
    (cns : Option (List String)) (s2 : String)
    (srcRoutes : Option WarpRouteFilterParams → Except String (List (String × WarpCoreConfig)))
    (srcWDC : String → Except String (Option WarpRouteDeployConfig)) :
    getWarpRoutesBySymbolAndChains (fun _ => Except.error e) st sym cns = []
    ∧ getWarpDeployConfigsBySymbolAndChains (fun _ => Except.error e) srcWDC st s2 cns = []
    ∧ (st.localWarpDeployConfigs = [] →
        getWarpDeployConfigsBySymbolAndChains srcRoutes (fun _ => Except.error e) st s2 cns = []) := by
  have h1 : ∀ sym' cns',
      getWarpRoutesBySymbolAndChainsBody (fun _ => Except.error e) st sym' cns' =
        Except.error e := by
    intro sym' cns'
    cases sym' with
    | none => simp [getWarpRoutesBySymbolAndChainsBody, candidateRoutes, getWarpRoutes]
    | some s =>
      by_cases hs : s = "" <;>
        simp [getWarpRoutesBySymbolAndChainsBody, candidateRoutes, getWarpRoutes, hs]
  refine ⟨?_, ?_, ?_⟩
  · simp [getWarpRoutesBySymbolAndChains, h1 sym cns]
  · simp [getWarpDeployConfigsBySymbolAndChains, getWarpDeployConfigsBySymbolAndChainsBody,
      getWarpRoutesBySymbolAndChains, h1 (some s2) cns, pure, Except.pure]
  · intro hld
    cases hm : getWarpRoutesBySymbolAndChains srcRoutes st (some s2) cns with
    | nil =>
      simp [getWarpDeployConfigsBySymbolAndChains, getWarpDeployConfigsBySymbolAndChainsBody,
        hm, pure, Except.pure]
    | cons r rs =>
      simp [getWarpDeployConfigsBySymbolAndChains, getWarpDeployConfigsBySymbolAndChainsBody,
        hm, getWarpDeployConfig, hld, bind, Except.bind]

theorem warpLookups_never_throw_witness :
    getWarpRoutesBySymbolAndChains (fun _ => Except.error "down") {} (some "USDC")
        (some ["eth"]) = []
    ∧ getWarpDeployConfigsBySymbolAndChains (fun _ => Except.ok [("r", cfgUSDC)])
        (fun _ => Except.error "down") {} "USDC" none = [] :=
  ⟨(warpLookups_never_throw "down" {} (some "USDC") (some ["eth"]) "USDC"
      (fun _ => Except.ok [("r", cfgUSDC)]) (fun _ => Except.error "down")).1,
   (warpLookups_never_throw "down" {} (some "USDC") (some ["eth"]) "USDC"
      (fun _ => Except.ok [("r", cfgUSDC)]) (fun _ => Except.error "down")).2.2 rfl⟩

theorem chainFilterPred_eq (cns : List String) (hcns : cns ≠ []) (config : WarpCoreConfig) :
    (!config.tokens.isEmpty &&
      cns.all (fun cn => config.tokens.any (fun t => t.chainName == cn)))
    = decide (∀ cn ∈ cns, ∃ t ∈ config.tokens, t.chainName = cn) := by
  apply Bool.eq_iff_iff.mpr
  simp only [Bool.and_eq_true, Bool.not_eq_true', List.isEmpty_eq_false,
    List.all_eq_true, List.any_eq_true, beq_iff_eq, decide_eq_true_eq]
  constructor
  · exact fun h => h.2
  · intro h
    refine ⟨?_, h⟩
    cases cns with
    | nil => exact absurd rfl hcns
    | cons c cs =>
      obtain ⟨t, ht, _⟩ := h c (List.mem_cons_self c cs)
      intro htk
      rw [htk] at ht
      exact absurd ht (List.not_mem_nil t)

/-- C5: with a non-empty chain list, the result is exactly the candidate
routes whose token chain-name set contains every requested chain; with no or
an empty chain list, all candidates are returned. -/
theorem getWarpRoutesBySymbolAndChains_filter
    (srcRoutes : Option WarpRouteFilterParams → Except String (List (String × WarpCoreConfig)))
    (st : RegState) (sym : Option String) (cns : List String)
    (routesMap : List (String × WarpCoreConfig))
    (hcand : candidateRoutes srcRoutes st sym = Except.ok routesMap) :
    (cns ≠ [] →
      getWarpRoutesBySymbolAndChains srcRoutes st sym (some cns) =
        (routesMap.map (fun rc => rc.2)).filter
          (fun config => decide (∀ cn ∈ cns, ∃ t ∈ config.tokens, t.chainName = cn)))
    ∧ getWarpRoutesBySymbolAndChains srcRoutes st sym none =
        routesMap.map (fun rc => rc.2)
    ∧ getWarpRoutesBySymbolAndChains srcRoutes st sym (some []) =
        routesMap.map (fun rc => rc.2) := by
  refine ⟨?_, ?_, ?_⟩
  · intro hcns
    have hne : cns.isEmpty = false := by
      cases cns with
      | nil => exact absurd rfl hcns
      | cons c cs => rfl
    simp only [getWarpRoutesBySymbolAndChains, getWarpRoutesBySymbolAndChainsBody, hcand,
      hne, Bool.false_eq_true, if_false]
    exact List.filter_congr (fun config _ => chainFilterPred_eq cns hcns config)
  · simp [getWarpRoutesBySymbolAndChains, getWarpRoutesBySymbolAndChainsBody, hcand]
  · simp [getWarpRoutesBySymbolAndChains, getWarpRoutesBySymbolAndChainsBody, hcand,
      List.isEmpty]

theorem getWarpRoutesBySymbolAndChains_filter_witness :
    (["eth", "polygon"] : List String) ≠ []
    ∧ getWarpRoutesBySymbolAndChains srcRC5 {} (some "USDC") (some ["eth", "polygon"]) =
        (rmC5.map (fun rc => rc.2)).filter
          (fun config =>
            decide (∀ cn ∈ ["eth", "polygon"], ∃ t ∈ config.tokens, t.chainName = cn))
    ∧ (rmC5.map (fun rc => rc.2)).filter
          (fun config =>
            decide (∀ cn ∈ ["eth", "polygon"], ∃ t ∈ config.tokens, t.chainName = cn)) =
        [cfgUSDC] :=
  ⟨by decide,
   (getWarpRoutesBySymbolAndChains_filter srcRC5 {} (some "USDC") ["eth", "polygon"]
      rmC5 rfl).1 (by decide),
   by decide⟩

theorem deploy_foldlM_mem (st : RegState) (hld : st.localWarpDeployConfigs = [])
    (srcWDC : String → Except String (Option WarpRouteDeployConfig)) (symbol : String) :
    ∀ (rs : List WarpCoreConfig) (acc res : List WarpRouteDeployConfig),
      rs.foldlM (fun deployConfigs route =>
        match getWarpDeployConfig st srcWDC (generateRouteId route (some symbol)) with
        | Except.error e => Except.error e
        | Except.ok (some dc) => Except.ok (deployConfigs ++ [dc])
        | Except.ok none => Except.ok deployConfigs) acc = Except.ok res →
      ∀ dc ∈ res, dc ∈ acc ∨ ∃ rid, srcWDC rid = Except.ok (some dc) := by
  intro rs
  induction rs with
  | nil =>
    intro acc res h dc hdc
    simp only [List.foldlM_nil, pure, Except.pure, Except.ok.injEq] at h
    subst h
    exact Or.inl hdc
  | cons r rs ih =>
    intro acc res h dc hdc
    rw [List.foldlM_cons] at h
    cases hgd : getWarpDeployConfig st srcWDC (generateRouteId r (some symbol)) with
    | error e =>
      rw [hgd] at h
      simp [bind, Except.bind] at h
    | ok odc =>
      rw [hgd] at h
      cases odc with
      | none =>
        simp only [bind, Except.bind] at h
        exact ih acc res h dc hdc
      | some d =>
        simp only [bind, Except.bind] at h
        rcases ih (acc ++ [d]) res h dc hdc with hin | hsrc
        · rcases List.mem_append.mp hin with hin | hin
          · exact Or.inl hin
          · have hd : dc = d := by simpa using hin
            subst hd
            refine Or.inr ⟨generateRouteId r (some symbol), ?_⟩
            rw [getWarpDeployConfig, hld] at hgd
            simpa using hgd
        · exact Or.inr hsrc

/-- C10: `localWarpDeployConfigs` starts empty (the field initializer; the
startup loader never assigns it) and stays empty across every mutating
registry operation; hence `getWarpDeployConfig` always answers with the
source registry's result, and every deploy config surfaced by
`getWarpDeployConfigsBySymbolAndChains` is one the source registry knows. -/
theorem localWarpDeployConfigs_stays_empty
    (pm : String → ParsedVal ChainMetadata) (pa : String → ParsedVal Addrs)
    (sca : String → Option Addrs)
    (routes : List (String × WarpCoreConfig)) (meta : List (String × ChainMetadata))
    (deploys : List (String × Addrs)) (files : List (String × String))
    (ops : List RegOp) :
    (initState routes meta deploys files).localWarpDeployConfigs = []
    ∧ (ops.foldl (applyOp pm pa sca)
        (initState routes meta deploys files)).localWarpDeployConfigs = []
    ∧ (∀ (srcWDC : String → Except String (Option WarpRouteDeployConfig)) (routeId : String),
        getWarpDeployConfig (ops.foldl (applyOp pm pa sca) (initState routes meta deploys files))
          srcWDC routeId = srcWDC routeId)
    ∧ (∀ (srcRoutes : Option WarpRouteFilterParams →
          Except String (List (String × WarpCoreConfig)))
        (srcWDC : String → Except String (Option WarpRouteDeployConfig))
        (symbol : String) (chainNames : Option (List String)) (dc : WarpRouteDeployConfig),
        dc ∈ getWarpDeployConfigsBySymbolAndChains srcRoutes srcWDC
              (ops.foldl (applyOp pm pa sca) (initState routes meta deploys files))
              symbol chainNames →
        ∃ rid, srcWDC rid = Except.ok (some dc)) := by
  have hinv : (ops.foldl (applyOp pm pa sca)
      (initState routes meta deploys files)).localWarpDeployConfigs = [] := by
    rw [foldl_preserves_deployConfigs]
    rfl
  refine ⟨rfl, hinv, ?_, ?_⟩
  · intro srcWDC routeId
    simp [getWarpDeployConfig, hinv]
  · intro srcRoutes srcWDC symbol chainNames dc hdc
    revert hdc
    unfold getWarpDeployConfigsBySymbolAndChains
    cases hbody : getWarpDeployConfigsBySymbolAndChainsBody srcRoutes srcWDC
        (ops.foldl (applyOp pm pa sca) (initState routes meta deploys files))
        symbol chainNames with
    | error e => intro hdc; exact absurd hdc (List.not_mem_nil dc)
    | ok v =>
      intro hdc
      have := deploy_foldlM_mem _ hinv srcWDC symbol _ [] v hbody dc hdc
      rcases this with hin | hsrc
      · exact absurd hin (List.not_mem_nil dc)
      · exact hsrc

theorem localWarpDeployConfigs_stays_empty_witness :
    ∃ rid, srcWDC10 rid = Except.ok (some (⟨5⟩ : WarpRouteDeployConfig)) :=
  (localWarpDeployConfigs_stays_empty (fun _ => ParsedVal.err) (fun _ => ParsedVal.err)
      (fun _ => none) [] [] [] [] []).2.2.2 srcRC5 srcWDC10 "USDC" none ⟨5⟩ (by decide)

theorem assetTransferAux_ok {R : Type} (chains : List String) (hop : Nat → Option R)
    (r : Nat → R) (k : Nat) (hk : k + 1 < chains.length)
    (hsome : ∀ j, j < k → hop j = some (r j)) (hnone : hop k = none) :
    ∀ (fuel i : Nat), i + fuel = chains.length → i ≤ k →
      assetTransferAux chains hop fuel i = (List.range (k - i)).map (fun n => r (i + n)) := by
  intro fuel
  induction fuel with
  | zero =>
    intro i hfi hik
    omega
  | succ fuel ih =>
    intro i hfi hik
    have hi1 : i + 1 < chains.length := by omega
    obtain ⟨x, hget⟩ : ∃ x, chains[i + 1]? = some x :=
      ⟨_, List.getElem?_eq_getElem hi1⟩
    rcases Nat.lt_or_ge i k with hlt | hge
    · have hhop : hop i = some (r i) := hsome i hlt
      rw [assetTransferAux, hget, hhop, ih (i + 1) (by omega) (by omega)]
      have hrange : k - i = (k - (i + 1)) + 1 := by omega
      rw [hrange, List.range_succ_eq_map]
      simp only [List.map_cons, List.map_map, Nat.add_zero]
      refine congrArg₂ List.cons rfl ?_
      apply List.map_congr_left
      intro n _
      simp only [Function.comp_apply]
      congr 1
      omega
    · have hik' : i = k := by omega
      subst hik'
      rw [assetTransferAux, hget, hnone]
      simp

/-- C4: if every hop before `i` succeeds and hop `i` times out or fails
(with at least one hop left), the transfer returns exactly the earlier hops'
results, any hop after `i` is irrelevant to the outcome, and the tool handler
reports the error payload because the count falls short of
`chains.length - 1`. -/
theorem assetTransfer_partial_failure {R : Type} (chains : List String)
    (hop hop' : Nat → Option R) (i : Nat) (r : Nat → R)
    (hsome : ∀ j, j < i → hop j = some (r j)) (hnone : hop i = none)
    (hlt : i + 1 < chains.length) :
    assetTransfer chains hop = (List.range i).map r
    ∧ ((∀ j, j ≤ i → hop' j = hop j) → assetTransfer chains hop' = (List.range i).map r)
    ∧ assetTransferToolError chains (assetTransfer chains hop) = true := by
  have h1 : assetTransfer chains hop = (List.range i).map r := by
    rw [assetTransfer,
      assetTransferAux_ok chains hop r i hlt hsome hnone chains.length 0 (by omega) (by omega)]
    simp
  refine ⟨h1, ?_, ?_⟩
  · intro hagree
    rw [assetTransfer,
      assetTransferAux_ok chains hop' r i hlt
        (fun j hj => by rw [hagree j (Nat.le_of_lt hj)]; exact hsome j hj)
        (by rw [hagree i (Nat.le_refl i)]; exact hnone)
        chains.length 0 (by omega) (by omega)]
    simp
  · rw [h1]
    simp only [assetTransferToolError, List.length_map, List.length_range,
      bne_iff_ne, ne_eq, Bool.not_eq_true']
    rw [beq_eq_false_iff_ne]
    intro hcontra
    omega

theorem assetTransfer_partial_failure_witness :
    assetTransfer ["A", "B", "C"] hopW = [0]
    ∧ assetTransferToolError ["A", "B", "C"] (assetTransfer ["A", "B", "C"] hopW) = true := by
  have h := assetTransfer_partial_failure ["A", "B", "C"] hopW hopW 1 (fun _ => 0)
    (fun j hj => by
      have hj0 : j = 0 := by omega
      subst hj0
      rfl)
    rfl (by decide)
  exact ⟨by rw [h.1]; rfl, h.2.2⟩

/-- C9: per hop, zero routable tokens is the hard error "Error finding warp
route", more than one is the hard error "Multiple tokens found for route",
and on success the unique routable token is the one used. -/
theorem executeDelivery_unique_token {R : Type}
    (getTokensForRoute : String → String → List WarpToken) (deliver : WarpToken → R)
    (origin destination : String) :
    (getTokensForRoute origin destination = [] →
      executeDelivery getTokensForRoute deliver origin destination =
        Except.error "Error finding warp route")
    ∧ (∀ t ts, getTokensForRoute origin destination = t :: ts → ts ≠ [] →
        executeDelivery getTokensForRoute deliver origin destination =
          Except.error "Multiple tokens found for route")
    ∧ (∀ t, getTokensForRoute origin destination = [t] →
        executeDelivery getTokensForRoute deliver origin destination =
          Except.ok (deliver t)) := by
  refine ⟨?_, ?_, ?_⟩
  · intro h
    simp [executeDelivery, h]
  · intro t ts h hts
    cases ts with
    | nil => exact absurd rfl hts
    | cons t2 ts2 => simp [executeDelivery, h]
  · intro t h
    simp [executeDelivery, h]

theorem executeDelivery_unique_token_witness :
    executeDelivery gtW (fun _ => (0 : Nat)) "nowhere" "d" =
      Except.error "Error finding warp route"
    ∧ executeDelivery gtW (fun _ => (0 : Nat)) "x2" "d" =
        Except.error "Multiple tokens found for route"
    ∧ executeDelivery gtW (fun _ => (0 : Nat)) "eth" "d" = Except.ok 0 :=
  ⟨(executeDelivery_unique_token gtW (fun _ => (0 : Nat)) "nowhere" "d").1 (by decide),
   (executeDelivery_unique_token gtW (fun _ => (0 : Nat)) "x2" "d").2.1
     ⟨"a", "1", "S"⟩ [⟨"b", "2", "S"⟩] (by decide) (by decide),
   (executeDelivery_unique_token gtW (fun _ => (0 : Nat)) "eth" "d").2.2
     ⟨"eth", "0x1", "USDC"⟩ (by decide)⟩
